import Mathlib

/-!
Verification of the prompt-programming-language interpreter
(parser, AST, evaluator, session tail) against its specification.

The Rust sources are shallowly embedded: pure functions become Lean
functions, the statement interpreter is modelled with explicit outcome
values, and external collaborators (the Chat Service HTTP client, the
operating-system shell, the compiled regex engine) are passed in as
oracle functions, matching the spec's "external interfaces" boundary.
A Rust panic is a distinct outcome (`panicked`), separate from the
recoverable `EvaluateError` results, because several claims are about
the difference between the two.
-/

/-! ## AST (src/ast.rs)

`regex::Regex` is external; it is modelled as its source text together
with its matching behaviour (an oracle from a subject string to the
optional list of capture groups, group 0 first, `none` entries for
groups that did not participate).  The Rust field `variable` of
`MatchStatement` is a Lean keyword and is rendered `var`.
-/

structure Captures where
  groups : List (Option String)
deriving DecidableEq

structure Regex where
  source : String
  captures : String → Option Captures

structure Variable where
  name : String
deriving DecidableEq

structure Command where
  text : String
deriving DecidableEq

structure PromptCall where
  names : List String
deriving DecidableEq

inductive PipeSubject where
  | command (c : Command)
  | var (v : Variable)

structure PipeStatement where
  call : PromptCall
  subject : PipeSubject

inductive MatchAction where
  | pipe (p : PipeStatement)
  | command (c : Command)
  | promptCall (c : PromptCall)

structure MatchCase where
  regex : Regex
  action : MatchAction

structure MatchStatement where
  var : Variable
  cases : List MatchCase

inductive Statement where
  | matchStatement (m : MatchStatement)
  | pipeStatement (p : PipeStatement)
  | command (c : Command)

structure PromptOptions where
  description : Option String := none
  direction : Option String := none
  eager : Option Bool := none
  history : Option Bool := none
deriving DecidableEq

structure Prompt where
  is_main : Bool
  name : String
  options : PromptOptions
  statements : List Statement

structure Program where
  prompts : List Prompt

/-! ## Regex literal scan (src/parser.rs, rule `regex_nested`)

The PEG rule, over characters:

    rule regex_nested() -> String
        = "(" b:$([^'('|')']*) n:regex_nested() a:$([^'('|')']*) ")" {
            format!("({b}{n}{a})")
        }
        / "(" c:$([^')']*) ")" { format!("({c})") }

Repetitions are greedy without backtracking and the two alternatives are
tried in order with backtracking between them (PEG ordered choice).  The
model returns the produced string together with the unconsumed input.
-/

def notParen (c : Char) : Bool := !(c = '(') && !(c = ')')

def notClose (c : Char) : Bool := !(c = ')')

/-- Consume a single closing parenthesis. -/
def expect_close : List Char → Option (List Char)
  | c :: r => if c = ')' then some r else none
  | [] => none

/-- Second alternative of `regex_nested`: `"(" c:$([^')']*) ")"`. -/
def regex_alt2 (rest : List Char) : Option (List Char × List Char) :=
  match expect_close (rest.dropWhile notClose) with
  | some r => some ('(' :: (rest.takeWhile notClose ++ [')']), r)
  | none => none

/-- The balanced-scan rule itself.  Returns the string handed to the
regex engine and the unconsumed remainder of the input. -/
def regex_nested : List Char → Option (List Char × List Char)
  | [] => none
  | c :: rest =>
    if c = '(' then
      match regex_nested (rest.dropWhile notParen) with
      | some (n, r2) =>
        (match expect_close (r2.dropWhile notParen) with
         | some r4 =>
             some ('(' :: (rest.takeWhile notParen ++ n ++ r2.takeWhile notParen ++ [')']), r4)
         | none => regex_alt2 rest)
      | none => regex_alt2 rest
    else none
termination_by l => l.length
decreasing_by
  simp only [List.length_cons]
  exact Nat.lt_succ_of_le (List.dropWhile_suffix notParen).length_le

/-- Literal-parenthesis balance check: the depth counter never goes
negative and returns to zero at the end of the literal. -/
def balanced_from (d : Nat) : List Char → Bool
  | [] => d == 0
  | c :: r =>
    if c = '(' then balanced_from (d + 1) r
    else if c = ')' then
      match d with
      | 0 => false
      | d' + 1 => balanced_from d' r
    else balanced_from d r

def balanced_parens (s : List Char) : Bool := balanced_from 0 s

/-- Regex literals in "linear chain" form: a parenthesized span holding
paren-free text around at most one immediately nested chain.  These are
exactly the literals the first grammar alternative can stack. -/
inductive RChain : List Char → Prop where
  | base (c : List Char) :
      (∀ x ∈ c, notParen x = true) → RChain ('(' :: (c ++ [')']))
  | step (b inner a : List Char) :
      (∀ x ∈ b, notParen x = true) → (∀ x ∈ a, notParen x = true) →
      RChain inner → RChain ('(' :: (b ++ inner ++ a ++ [')']))

/-! ## Prompt and program rules (src/parser.rs, rules `prompt` and `program`)

The `prompt` rule (after YAML header decoding, an external concern of
`serde_yaml`) always constructs its `Prompt` with `is_main: false`; the
`program` rule collects the prompts and then flips `is_main` on the
first element via `prompts.first_mut()`. -/

def prompt_rule (name : String) (options : PromptOptions)
    (statements : List Statement) : Prompt :=
  { is_main := false, name := name, options := options, statements := statements }

def set_first_main : List Prompt → List Prompt
  | [] => []
  | p :: ps => { p with is_main := true } :: ps

def program_rule (parsed : List (String × PromptOptions × List Statement)) : Program :=
  { prompts := set_first_main (parsed.map (fun x => prompt_rule x.1 x.2.1 x.2.2)) }

/-! ## Evaluator data model (src/eval.rs, src/chat.rs, src/completion.rs)

`EvaluateError` is the evaluator's error enum; `JoinError` carries the
panic payload of a crashed spawned branch.  `EvalOutcome` distinguishes
a Rust panic from the recoverable `Result` channel.  Of the external
`CompletionOptions` only the fields the evaluator sets are modelled
(the remaining fields belong to the out-of-scope Chat Service).  The
token count a `ChatMessage` carries is computed by an external
tokenizer and is never read by the evaluator, so it is omitted.
-/

inductive EvaluateError where
  | Command (stderr : String)
  | MissingPrompt (name : String)
  | UndeclaredVariable (name : String)
  | JoinError (msg : String)
  | CommandExited
deriving DecidableEq

inductive EvalOutcome (α : Type) where
  | ok (value : α)
  | err (e : EvaluateError)
  | panicked (msg : String)
deriving DecidableEq

structure EvaluateConfig where
  api_key : String
  prompt_path : String
  prompt_dir : String
  quiet : Bool
deriving DecidableEq

structure EvaluateVars where
  ai : String
  user : String
deriving DecidableEq

structure EvaluateState where
  current_prompt_name : String
  vars : EvaluateVars
deriving DecidableEq

/-- The reqwest HTTP client is external state the evaluator only
forwards to the Chat Service; it is not represented. -/
structure Evaluate where
  config : EvaluateConfig
  program : Program

inductive ChatRole where
  | Ai
  | User
  | System
deriving DecidableEq

structure ChatMessage where
  role : ChatRole
  content : String
deriving DecidableEq

structure CompletionOptions where
  ai_responds_first : Option Bool := none
  append : Option String := none
  name : Option String := none
  no_context : Option Bool := none
  quiet : Option Bool := none
  prefix_ai : Option String := none
  prefix_user : Option String := none
  stream : Option Bool := none
  once : Option Bool := none
deriving DecidableEq

structure ChatCommand where
  completion : CompletionOptions
  system : Option String := none
  direction : Option String := none
deriving DecidableEq

/-! ## String helpers used by the evaluator

Rust `str::split_once`, `str::trim` and `str::trim_start`, modelled
over the character list of the string.  Lean's `Char.isWhitespace`
(space, tab, CR, LF) stands in for Rust's Unicode `char::is_whitespace`;
the difference only concerns exotic Unicode whitespace. -/

def split_once_list (c : Char) : List Char → Option (List Char × List Char)
  | [] => none
  | x :: xs =>
    if x = c then some ([], xs)
    else (split_once_list c xs).map (fun p => (x :: p.1, p.2))

def trim_start_chars : List Char → List Char
  | [] => []
  | c :: r => if c.isWhitespace then trim_start_chars r else c :: r

def rust_trim_start (s : String) : String := ⟨trim_start_chars s.toList⟩

def rust_trim (s : String) : String :=
  ⟨(trim_start_chars (trim_start_chars s.toList).reverse).reverse⟩

/-! ## State extraction (src/eval.rs, `evaluate_prompt` lines 102-120)

From the Chat Service's returned message list, the latest `Ai` message
is taken with `.unwrap()` (a panic when absent) while the latest `User`
message falls back to the empty string via `.unwrap_or_default()`.
Both strip a leading `role:` label from the content. -/

def strip_role_label (content : String) : String :=
  match split_once_list ':' content.toList with
  | some p => rust_trim_start ⟨p.2⟩
  | none => content

def find_latest (p : ChatMessage → Bool) (result : List ChatMessage) :
    Option ChatMessage :=
  result.reverse.find? p

def extract_state (prompt : Prompt) (result : List ChatMessage) :
    EvalOutcome EvaluateState :=
  match find_latest (fun m => decide (m.role = ChatRole.Ai)) result with
  | none => .panicked "unwrap on None"
  | some m =>
    .ok { current_prompt_name := prompt.name,
          vars := { ai := strip_role_label m.content,
                    user :=
                      match find_latest (fun m => decide (m.role = ChatRole.User)) result with
                      | some m => strip_role_label m.content
                      | none => "" } }

/-! ## Shell command execution (src/eval.rs, `evaluate_command`)

The spawned process is an oracle from the built invocation to its
captured output.  Only the non-Windows branch (`sh -c`) is modelled.
Iterating `capture_names`, every positional group is appended as a
process argument and every named group additionally becomes an
environment variable; indexing `captures` panics when the group is
absent or did not participate.  A non-empty *trimmed* stderr is turned
into `EvaluateError::Command`; otherwise trimmed stdout is returned. -/

structure ShellInvocation where
  shell_args : List String
  env_vars : List (String × String)
  cwd : String
deriving DecidableEq

structure ProcessOutput where
  stdout : String
  stderr : String
  status : Int
deriving DecidableEq

def capture_env_args (groups : List (Option String)) (i : Nat) :
    List (Option String) → EvalOutcome (List String × List (String × String))
  | [] => .ok ([], [])
  | name? :: rest =>
    match groups.get? i with
    | some (some s) =>
      (match capture_env_args groups (i + 1) rest with
       | .ok (args, envs) =>
         .ok (s :: args,
              match name? with
              | some n => (n, s) :: envs
              | none => envs)
       | .err e => .err e
       | .panicked m => .panicked m)
    | _ => .panicked "capture group absent"

def evaluate_command (shell : ShellInvocation → ProcessOutput)
    (env : Evaluate) (state : EvaluateState) (command : Command)
    (captures : Option (Captures × List (Option String))) :
    EvalOutcome String :=
  let extra : EvalOutcome (List String × List (String × String)) :=
    match captures with
    | some (caps, names) => capture_env_args caps.groups 0 names
    | none => .ok ([], [])
  match extra with
  | .ok (args, envs) =>
    let output := shell
      { shell_args := "-c" :: command.text :: args,
        env_vars := [("AI", state.vars.ai), ("USER", state.vars.user)] ++ envs,
        cwd := env.config.prompt_dir }
    let errText := rust_trim output.stderr
    if errText.length > 0 then .err (.Command errText)
    else .ok (rust_trim output.stdout)
  | .err e => .err e
  | .panicked m => .panicked m

/-! ## Prompt-call fan-out (src/eval.rs, `evaluate_prompt_call`)

Each name is looked up in the program's prompt list with
`.ok_or(MissingPrompt).unwrap()` — a panic, not a returned error —
before a branch is spawned with a fresh `ChatCommand` derived from the
callee prompt's options.  The spawned branch is an oracle; its observed
join result is an `EvalOutcome` where `panicked` plays the role of a
`JoinError` from a crashed task. -/

def lookup_prompt (prompts : List Prompt) (name : String) : Option Prompt :=
  prompts.find? (fun p => decide (p.name = name))

def branch_chat_command (prompt : Prompt) (append : String)
    (prefix_user : Option String) : ChatCommand :=
  { completion :=
      { ai_responds_first := some false,
        append := some append,
        no_context := prompt.options.history.map (fun h => !h),
        name := some prompt.name,
        once := some true,
        prefix_ai := some prompt.name,
        prefix_user := prefix_user,
        stream := some false,
        quiet := some true },
    system := prompt.options.description,
    direction := prompt.options.direction }

def spawn_branches (spawn_branch : Prompt → ChatCommand → EvalOutcome Unit)
    (program : Program) (state : EvaluateState) (append : String) :
    List String → EvalOutcome (List (EvalOutcome Unit))
  | [] => .ok []
  | name :: rest =>
    match lookup_prompt program.prompts name with
    | none => .panicked ("unwrap on MissingPrompt " ++ name)
    | some p =>
      match spawn_branches spawn_branch program state append rest with
      | .ok rs =>
        .ok (spawn_branch p
              (branch_chat_command p append (some state.current_prompt_name)) :: rs)
      | .err e => .err e
      | .panicked m => .panicked m

def evaluate_prompt_call (spawn_branch : Prompt → ChatCommand → EvalOutcome Unit)
    (evaluator : Evaluate) (state : EvaluateState) (call : PromptCall)
    (append : String) : EvalOutcome (List (EvalOutcome Unit)) :=
  spawn_branches spawn_branch evaluator.program state append call.names

/-- The caller-side double `collect` over the joined branches: the
first `JoinError` (branch panic) wins and is wrapped via
`From<JoinError>`, else the first branch `EvaluateError` wins. -/
def first_join_error : List (EvalOutcome Unit) → Option String
  | [] => none
  | .panicked m :: _ => some m
  | _ :: rest => first_join_error rest

def first_eval_error : List (EvalOutcome Unit) → Option EvaluateError
  | [] => none
  | .err e :: _ => some e
  | _ :: rest => first_eval_error rest

def collect_join (results : List (EvalOutcome Unit)) : EvalOutcome Unit :=
  match first_join_error results with
  | some m => .err (.JoinError m)
  | none =>
    match first_eval_error results with
    | some e => .err e
    | none => .ok ()

/-! ## Pipe statements, match statements, actions (src/eval.rs)

Callees are passed as function parameters (open recursion), so each
Rust function is modelled on its own; the recursive knot through
`evaluate_prompt` is irrelevant to the claims, which are all about a
single layer. -/

def evaluate_pipe_statement
    (eval_cmd : EvaluateState → Command →
      Option (Captures × List (Option String)) → EvalOutcome String)
    (eval_call : EvaluateState → PromptCall → String → EvalOutcome Unit)
    (state : EvaluateState) (stmt : PipeStatement)
    (captures : Option (Captures × List (Option String))) : EvalOutcome Unit :=
  let append : EvalOutcome String :=
    match stmt.subject with
    | .command c => eval_cmd state c captures
    | .var v =>
      if v.name = "AI" then .ok state.vars.ai
      else if v.name = "USER" then .ok state.vars.user
      else .err (.UndeclaredVariable v.name)
  match append with
  | .ok a => eval_call state stmt.call a
  | .err e => .err e
  | .panicked m => .panicked m

def find_first_match (cases : List MatchCase) (test : String) :
    Option (MatchCase × Captures) :=
  match cases with
  | [] => none
  | c :: rest =>
    match c.regex.captures test with
    | some caps => some (c, caps)
    | none => find_first_match rest test

/-- `evaluate_match_statement`: resolving any variable other than `AI`
or `USER` is the source's `panic!("Unexpected variable")`; otherwise
the first matching case's action runs through the supplied action
executor and its result is returned unchanged, and with no matching
case the statement succeeds doing nothing. -/
def evaluate_match_statement
    (run_action : MatchAction → Captures → EvalOutcome Unit)
    (state : EvaluateState) (stmt : MatchStatement) : EvalOutcome Unit :=
  let test : EvalOutcome String :=
    if stmt.var.name = "AI" then .ok state.vars.ai
    else if stmt.var.name = "USER" then .ok state.vars.user
    else .panicked "Unexpected variable"
  match test with
  | .ok t =>
    (match find_first_match stmt.cases t with
     | some pr => run_action pr.1.action pr.2
     | none => .ok ())
  | .err e => .err e
  | .panicked m => .panicked m

/-- `evaluate_match_action`: a pipe action runs the pipe statement with
the captures, a command action runs the shell command (its printing is
I/O and elided), and a prompt-call action indexes capture group 1 —
a panic when the group is absent — and fans out with its text. -/
def evaluate_match_action
    (eval_pipe : EvaluateState → PipeStatement →
      Option (Captures × List (Option String)) → EvalOutcome Unit)
    (eval_cmd : EvaluateState → Command →
      Option (Captures × List (Option String)) → EvalOutcome String)
    (eval_call : EvaluateState → PromptCall → String → EvalOutcome Unit)
    (state : EvaluateState) (action : MatchAction)
    (captures : Captures) (capture_names : List (Option String)) : EvalOutcome Unit :=
  match action with
  | .pipe p => eval_pipe state p (some (captures, capture_names))
  | .command c =>
    (match eval_cmd state c (some (captures, capture_names)) with
     | .ok _ => .ok ()
     | .err e => .err e
     | .panicked m => .panicked m)
  | .promptCall call =>
    match captures.groups.get? 1 with
    | some (some s) => eval_call state call s
    | _ => .panicked "no capture group 1"

/-! ## The statement loop of `evaluate_prompt` (src/eval.rs lines 122-139)

The loop discards the `Result` of match statements and pipe statements
(`let _ = ...`), so only a panic there stops the loop; a bare command's
error, by contrast, is propagated with `?` and aborts the invocation. -/

def run_statements
    (eval_match : EvaluateState → MatchStatement → EvalOutcome Unit)
    (eval_pipe : EvaluateState → PipeStatement → EvalOutcome Unit)
    (eval_cmd : EvaluateState → Command → EvalOutcome String)
    (state : EvaluateState) : List Statement → EvalOutcome Unit
  | [] => .ok ()
  | stmt :: rest =>
    match stmt with
    | .matchStatement m =>
      (match eval_match state m with
       | .panicked msg => .panicked msg
       | _ => run_statements eval_match eval_pipe eval_cmd state rest)
    | .pipeStatement p =>
      (match eval_pipe state p with
       | .panicked msg => .panicked msg
       | _ => run_statements eval_match eval_pipe eval_cmd state rest)
    | .command c =>
      (match eval_cmd state c with
       | .ok _ => run_statements eval_match eval_pipe eval_cmd state rest
       | .err e => .err e
       | .panicked msg => .panicked msg)

/-- `evaluate_prompt`: run the Chat Service, treat an empty message
list as `CommandExited`, extract the state and walk the statements.
(The `.unwrap()` on the Chat Service's `Result` is absorbed into the
oracle, which returns the message list directly.) -/
def evaluate_prompt (chat : ChatCommand → List ChatMessage)
    (run_statements_fn : EvaluateState → List Statement → EvalOutcome Unit)
    (prompt : Prompt) (command : ChatCommand) : EvalOutcome Unit :=
  let result := chat command
  if result.length = 0 then .err .CommandExited
  else
    match extract_state prompt result with
    | .ok state => run_statements_fn state prompt.statements
    | .err e => .err e
    | .panicked m => .panicked m

/-! ## Top-level driver (src/lib.rs, `prompt`, lines 70-78)

The spawned evaluation task matches the evaluator's error:
`CommandExited` calls `std::process::exit(0)` (success status), every
other `EvaluateError` is pretty-printed to standard error.  A panic in
the task surfaces as a `JoinError` at `eval.await`, whose result the
driver discards. -/

inductive DriverEffect where
  | exit_zero
  | print_stderr (e : EvaluateError)
deriving DecidableEq

def driver_handle_result : EvalOutcome Unit → Option DriverEffect
  | .err .CommandExited => some .exit_zero
  | .err e => some (.print_stderr e)
  | .ok _ => none
  | .panicked _ => none

/-! ## Session tail (src/watch.rs, `monitor`, lines 9-27)

On open, the session file's content is searched for the first
occurrence of the `<->` divider; `split_off(divider_index + 4)` (a
panic when the index passes the end) keeps everything after the divider
and the byte assumed to follow it, the remainder is `trim_start`-ed,
and each `lines()` entry is printed followed by a blank line.  Rust
`str::lines` splits at `\n`, drops one final empty piece produced by a
trailing newline, and strips one `\r` left at a piece's end by a
`\r\n` ending. -/

def divider_chars : List Char := ['<', '-', '>']

def find_sub (pat : List Char) : List Char → Option Nat
  | [] => if pat.isPrefixOf ([] : List Char) then some 0 else none
  | c :: rest =>
    if pat.isPrefixOf (c :: rest) then some 0
    else (find_sub pat rest).map (· + 1)

def split_newlines : List Char → List (List Char)
  | [] => [[]]
  | c :: rest =>
    if c = '\n' then [] :: split_newlines rest
    else
      match split_newlines rest with
      | [] => [[c]]
      | l :: ls => (c :: l) :: ls

def drop_trailing_empty : List (List Char) → List (List Char)
  | [] => []
  | [l] => if l.isEmpty then [] else [l]
  | l :: rest => l :: drop_trailing_empty rest

def strip_trailing_cr : List Char → List Char
  | [] => []
  | [c] => if c = '\r' then [] else [c]
  | c :: rest => c :: strip_trailing_cr rest

def rust_lines (s : List Char) : List (List Char) :=
  (drop_trailing_empty (split_newlines s)).map strip_trailing_cr

def render_lines : List (List Char) → List Char
  | [] => []
  | l :: ls => l ++ '\n' :: '\n' :: render_lines ls

/-- The baseline transcript text `monitor` prints once on open. -/
def monitor_baseline (content : List Char) : EvalOutcome (List Char) :=
  match find_sub divider_chars content with
  | some i =>
    if content.length < i + 4 then .panicked "split_off index past the end"
    else .ok (render_lines (rust_lines (trim_start_chars (content.drop (i + 4)))))
  | none => .ok []

/-- Comparison measure for the session round trip: the transcript's
lines with blank lines removed. -/
def nonblank_lines (s : List Char) : List (List Char) :=
  (rust_lines s).filter (fun l => !l.isEmpty)

/-! ## Concrete instances

Closed instances used to evaluate the model on concrete inputs: a
state taken from the spec's first-match-wins fixture, concrete stand-ins
for the external oracles (compiled regexes restricted to the subjects
they are applied to, a shell whose spawned process writes to stderr, a
Chat Service returning fixed message lists), and small statements. -/

def w_state : EvaluateState :=
  { current_prompt_name := "main",
    vars := { ai := "Yes. Something else", user := "" } }

def regex_ci_yes : Regex :=
  { source := "(?i:^yes)",
    captures := fun s =>
      if s = "Yes. Something else" then some ⟨[some "Yes"]⟩ else none }

def regex_ci_any : Regex :=
  { source := "(?i:.*)", captures := fun s => some ⟨[some s]⟩ }

/-- An action executor that reports which prompt call it was handed,
making the executed action observable in the outcome. -/
def w_run_action : MatchAction → Captures → EvalOutcome Unit := fun a _ =>
  match a with
  | .promptCall c => .err (.Command (String.intercalate "," c.names))
  | _ => .ok ()

def w_stmt_first_match : MatchStatement :=
  { var := ⟨"AI"⟩,
    cases := [⟨regex_ci_yes, .promptCall ⟨["A"]⟩⟩,
              ⟨regex_ci_any, .promptCall ⟨["B"]⟩⟩] }

def w_config : EvaluateConfig :=
  { api_key := "", prompt_path := "program.prompt", prompt_dir := ".", quiet := false }

def w_evaluator : Evaluate := { config := w_config, program := ⟨[]⟩ }

def w_shell_later : ShellInvocation → ProcessOutput :=
  fun _ => { stdout := "", stderr := "later boom", status := 0 }

def w_eval_cmd : EvaluateState → Command → EvalOutcome String :=
  fun st c => evaluate_command w_shell_later w_evaluator st c none

def w_eval_call_ok : EvaluateState → PromptCall → String → EvalOutcome Unit :=
  fun _ _ _ => .ok ()

def w_eval_pipe : EvaluateState → PipeStatement → EvalOutcome Unit :=
  fun st p =>
    evaluate_pipe_statement
      (fun st c caps => evaluate_command w_shell_later w_evaluator st c caps)
      w_eval_call_ok st p none

def w_eval_match : EvaluateState → MatchStatement → EvalOutcome Unit :=
  fun st m => evaluate_match_statement w_run_action st m

def pipe_foo : PipeStatement := { call := ⟨["x"]⟩, subject := .var ⟨"FOO"⟩ }

def pipe_ai : PipeStatement := { call := ⟨["x"]⟩, subject := .var ⟨"AI"⟩ }

/-- A prompt-call evaluation whose single joined branch resolved with
`CommandExited`, as a nested invocation does when the Chat Service
returns an empty list. -/
def w_eval_call_exited : EvaluateState → PromptCall → String → EvalOutcome Unit :=
  fun _ _ _ => collect_join [.err .CommandExited]

def w_eval_pipe_exited : EvaluateState → PipeStatement → EvalOutcome Unit :=
  fun st p =>
    evaluate_pipe_statement
      (fun st c caps => evaluate_command w_shell_later w_evaluator st c caps)
      w_eval_call_exited st p none

def ghost_call : PromptCall := ⟨["ghost"]⟩

def w_evaluator_one : Evaluate :=
  { config := w_config, program := ⟨[prompt_rule "a" {} []]⟩ }

def w_chat_command : ChatCommand := { completion := {} }

def prompt_main : Prompt := prompt_rule "main" {} []

def w_run_stmts : EvaluateState → List Statement → EvalOutcome Unit :=
  fun _ _ => .ok ()

def chat_empty : ChatCommand → List ChatMessage := fun _ => []

def chat_no_ai : ChatCommand → List ChatMessage :=
  fun _ => [⟨ChatRole.User, "hi"⟩]

def chat_only_ai : ChatCommand → List ChatMessage :=
  fun _ => [⟨ChatRole.Ai, "main: hello"⟩]

/-! ## Parser lemmas -/

theorem regex_nested_cons (c : Char) (rest : List Char) :
    regex_nested (c :: rest) =
      if c = '(' then
        match regex_nested (rest.dropWhile notParen) with
        | some (n, r2) =>
          (match expect_close (r2.dropWhile notParen) with
           | some r4 =>
               some ('(' :: (rest.takeWhile notParen ++ n ++ r2.takeWhile notParen ++ [')']), r4)
           | none => regex_alt2 rest)
        | none => regex_alt2 rest
      else none := by
  rw [regex_nested.eq_def]

theorem takeWhile_append_all {p : Char → Bool} {l r : List Char}
    (h : ∀ x ∈ l, p x = true) : (l ++ r).takeWhile p = l ++ r.takeWhile p := by
  induction l with
  | nil => simp
  | cons c cs ih =>
    simp only [List.cons_append, List.takeWhile_cons, h c (by simp)]
    simp [ih (fun x hx => h x (by simp [hx]))]

theorem dropWhile_append_all {p : Char → Bool} {l r : List Char}
    (h : ∀ x ∈ l, p x = true) : (l ++ r).dropWhile p = r.dropWhile p := by
  induction l with
  | nil => simp
  | cons c cs ih =>
    simp only [List.cons_append, List.dropWhile_cons, h c (by simp)]
    simp [ih (fun x hx => h x (by simp [hx]))]

theorem notClose_of_notParen {x : Char} (h : notParen x = true) : notClose x = true := by
  simp [notParen, notClose] at *
  exact h.2

theorem rchain_head {s : List Char} (hs : RChain s) : ∃ s', s = '(' :: s' := by
  cases hs with
  | base c hc => exact ⟨_, rfl⟩
  | step b inner a hb ha hi => exact ⟨_, rfl⟩

/-- A linear-chain literal followed by any remainder is consumed exactly:
the scan hands back the literal itself and leaves the remainder. -/
theorem rchain_parse {s : List Char} (hs : RChain s) (t : List Char) :
    regex_nested (s ++ t) = some (s, t) := by
  induction hs generalizing t with
  | base c hc =>
    have hassoc : ('(' :: (c ++ [')'])) ++ t = '(' :: (c ++ ')' :: t) := by simp
    rw [hassoc, regex_nested_cons, if_pos rfl]
    have hdw : (c ++ ')' :: t).dropWhile notParen = ')' :: t := by
      rw [dropWhile_append_all hc, List.dropWhile_cons]
      simp [notParen]
    rw [hdw, regex_nested_cons]
    simp only [reduceIte, show (')' = '(') = False by simp, if_false]
    show regex_alt2 (c ++ ')' :: t) = _
    unfold regex_alt2
    have hdw2 : (c ++ ')' :: t).dropWhile notClose = ')' :: t := by
      rw [dropWhile_append_all (fun x hx => notClose_of_notParen (hc x hx)), List.dropWhile_cons]
      simp [notClose]
    have htw2 : (c ++ ')' :: t).takeWhile notClose = c := by
      rw [takeWhile_append_all (fun x hx => notClose_of_notParen (hc x hx)), List.takeWhile_cons]
      simp [notClose]
    rw [hdw2, htw2]
    simp [expect_close]
  | step b inner a hb ha hi ih =>
    obtain ⟨inner', hinner⟩ := rchain_head hi
    have hassoc : ('(' :: (b ++ inner ++ a ++ [')'])) ++ t
        = '(' :: (b ++ (inner ++ (a ++ ')' :: t))) := by simp
    rw [hassoc, regex_nested_cons, if_pos rfl]
    have hdw : (b ++ (inner ++ (a ++ ')' :: t))).dropWhile notParen
        = inner ++ (a ++ ')' :: t) := by
      rw [dropWhile_append_all hb, hinner, List.cons_append, List.dropWhile_cons]
      simp [notParen]
    have hrec : regex_nested (inner ++ (a ++ ')' :: t)) = some (inner, a ++ ')' :: t) := ih _
    have hdw2 : (a ++ ')' :: t).dropWhile notParen = ')' :: t := by
      rw [dropWhile_append_all ha, List.dropWhile_cons]
      simp [notParen]
    have htw2 : (a ++ ')' :: t).takeWhile notParen = a := by
      rw [takeWhile_append_all ha, List.takeWhile_cons]
      simp [notParen]
    have htw : (b ++ (inner ++ (a ++ ')' :: t))).takeWhile notParen = b := by
      rw [takeWhile_append_all hb, hinner, List.cons_append, List.takeWhile_cons]
      simp [notParen]
    rw [hdw, hrec]
    dsimp only
    rw [hdw2]
    simp only [expect_close, reduceIte]
    rw [htw, htw2]

theorem balanced_from_open (d : Nat) (r : List Char) :
    balanced_from d ('(' :: r) = balanced_from (d + 1) r := by
  simp [balanced_from]

theorem balanced_from_close (d : Nat) (r : List Char) :
    balanced_from (d + 1) (')' :: r) = balanced_from d r := by
  simp [balanced_from]

theorem balanced_from_append_all {c : List Char} {r : List Char} {d : Nat}
    (h : ∀ x ∈ c, notParen x = true) :
    balanced_from d (c ++ r) = balanced_from d r := by
  induction c generalizing d with
  | nil => rfl
  | cons x xs ih =>
    have hx := h x (by simp)
    have h1 : ¬ x = '(' := by simp [notParen] at hx; exact fun hc => by simp [hc] at hx
    have h2 : ¬ x = ')' := by simp [notParen] at hx; exact fun hc => by simp [hc] at hx
    simp only [List.cons_append, balanced_from, if_neg h1, if_neg h2]
    exact ih (fun y hy => h y (by simp [hy]))

theorem rchain_balanced_from {s : List Char} (hs : RChain s) (d : Nat) (r : List Char) :
    balanced_from d (s ++ r) = balanced_from d r := by
  induction hs generalizing d r with
  | base c hc =>
    have hshape : ('(' :: (c ++ [')'])) ++ r = '(' :: (c ++ (')' :: r)) := by simp
    rw [hshape, balanced_from_open, balanced_from_append_all hc, balanced_from_close]
  | step b inner a hb ha hi ih =>
    have hshape : ('(' :: (b ++ inner ++ a ++ [')'])) ++ r
        = '(' :: (b ++ (inner ++ (a ++ (')' :: r)))) := by simp
    rw [hshape, balanced_from_open, balanced_from_append_all hb, ih,
      balanced_from_append_all ha, balanced_from_close]

/-- C1: REFUTED as stated, see `C1_counterexample`.  Amended: the regex
rule consumes a whole balanced literal (handing exactly its text,
inline flags included, to the regex engine with nothing unconsumed)
for linear-chain literals: at most one immediately nested group per
nesting level surrounded by paren-free text.  Literals with sibling
groups at the same level are only consumed up to the close of the
first spanned group. -/
theorem C1_linear_chain_regex_literal (s : List Char) (hs : RChain s) :
    balanced_parens s = true ∧ regex_nested s = some (s, []) := by
  constructor
  · show balanced_from 0 s = true
    have := rchain_balanced_from hs 0 []
    simpa using this
  · have := rchain_parse hs []
    simpa using this

/-- Witness for C1: the spec's own nested-group example literal
`((?i):^yes)` is a linear chain and is consumed whole with its exact
text handed on. -/
theorem C1_linear_chain_regex_literal_witness :
    balanced_parens (String.toList "((?i):^yes)") = true ∧
    regex_nested (String.toList "((?i):^yes)") =
      some (String.toList "((?i):^yes)", []) := by
  have h := RChain.step [] (String.toList "(?i)") (String.toList ":^yes")
    (by intro x hx; simp at hx) (by decide)
    (RChain.base (String.toList "?i") (by decide))
  have heq : '(' :: ([] ++ String.toList "(?i)" ++ String.toList ":^yes" ++ [')'])
      = String.toList "((?i):^yes)" := by decide
  exact C1_linear_chain_regex_literal _ (heq ▸ h)

/-- Counterexample for C1: the literal `(a(b)c(d)e)` has balanced
parentheses and two sibling nested groups, but the regex rule consumes
only the prefix `(a(b)` and leaves `c(d)e)` unconsumed, contradicting
the claim that every balanced literal is consumed whole. -/
theorem C1_counterexample :
    balanced_parens (String.toList "(a(b)c(d)e)") = true ∧
    regex_nested (String.toList "(a(b)c(d)e)") =
      some (String.toList "(a(b)", String.toList "c(d)e)") ∧
    String.toList "c(d)e)" ≠ [] := by
  refine ⟨by decide, ?_, by decide⟩
  simp [regex_nested, regex_alt2, expect_close, notParen, notClose]

/-- Helper: every prompt built by the `prompt` rule starts unmarked. -/
theorem map_prompt_rule_is_main
    (xs : List (String × PromptOptions × List Statement)) :
    (xs.map (fun x => prompt_rule x.1 x.2.1 x.2.2)).map (fun p => p.is_main)
      = List.replicate xs.length false := by
  induction xs with
  | nil => rfl
  | cons x xs ih =>
    simp only [List.map_cons, List.length_cons, List.replicate_succ, prompt_rule]
    exact congrArg (false :: ·) ih

/-- C1 ends; C8: after the `program` rule runs, at most one prompt is
flagged `is_main`, and on a non-empty parse it is exactly the first
prompt (all later prompts carry `false`). -/
theorem C8_first_prompt_is_main
    (parsed : List (String × PromptOptions × List Statement)) :
    (program_rule parsed).prompts.countP (fun p => p.is_main) ≤ 1 ∧
    (program_rule parsed).prompts.map (fun p => p.is_main)
      = (if parsed.isEmpty then []
         else true :: List.replicate (parsed.length - 1) false) := by
  have hmap : (program_rule parsed).prompts.map (fun p => p.is_main)
      = (if parsed.isEmpty then []
         else true :: List.replicate (parsed.length - 1) false) := by
    cases parsed with
    | nil => rfl
    | cons x xs =>
      simp only [program_rule, List.map_cons, set_first_main, List.isEmpty_cons,
        Bool.false_eq_true, if_neg, List.length_cons, Nat.add_sub_cancel]
      simp [map_prompt_rule_is_main xs]
  refine ⟨?_, hmap⟩
  have hcount : (program_rule parsed).prompts.countP (fun p => p.is_main)
      = List.count true ((program_rule parsed).prompts.map (fun p => p.is_main)) := by
    simp [List.count, List.countP_map, Function.comp_def]
  rw [hcount, hmap]
  cases parsed with
  | nil => simp
  | cons x xs => simp [List.count_cons, List.count_replicate]

/-! ## Evaluator theorems -/

/-- `find_first_match` returns the first case, in declaration order,
whose regex produces captures. -/
theorem find_first_match_first (cases : List MatchCase) (test : String)
    (i : Nat) (hi : i < cases.length) (caps : Captures)
    (hmatch : (cases.get ⟨i, hi⟩).regex.captures test = some caps)
    (hbefore : ∀ j (hj : j < i),
      (cases.get ⟨j, Nat.lt_trans hj hi⟩).regex.captures test = none) :
    find_first_match cases test = some (cases.get ⟨i, hi⟩, caps) := by
  induction cases generalizing i with
  | nil => exact absurd hi (by simp)
  | cons c rest ih =>
    cases i with
    | zero =>
      simp only [List.get] at hmatch
      simp [find_first_match, hmatch]
    | succ i' =>
      have hc : c.regex.captures test = none := hbefore 0 (Nat.succ_pos i')
      simp only [find_first_match, hc]
      exact ih i' (Nat.lt_of_succ_lt_succ hi) hmatch
        (fun j hj => hbefore (j + 1) (Nat.succ_lt_succ hj))

/-- If no case's regex matches, no case is found. -/
theorem find_first_match_none (cases : List MatchCase) (test : String)
    (h : ∀ c ∈ cases, c.regex.captures test = none) :
    find_first_match cases test = none := by
  induction cases with
  | nil => rfl
  | cons c rest ih =>
    simp only [find_first_match, h c (by simp)]
    exact ih (fun x hx => h x (by simp [hx]))

/-- C2: for a match statement whose variable resolves to state text,
the evaluation result is exactly the action executor applied to the
first (in declaration order) case whose regex matches; with no
matching case the statement returns `ok` without running any action,
for every possible action executor. -/
theorem C2_first_match_wins
    (run_action : MatchAction → Captures → EvalOutcome Unit)
    (state : EvaluateState) (stmt : MatchStatement) (test : String)
    (h : (stmt.var.name = "AI" ∧ test = state.vars.ai) ∨
         (stmt.var.name = "USER" ∧ test = state.vars.user)) :
    (evaluate_match_statement run_action state stmt =
      match find_first_match stmt.cases test with
      | some pr => run_action pr.1.action pr.2
      | none => .ok ()) ∧
    (∀ (i : Nat) (hi : i < stmt.cases.length) (caps : Captures),
      (stmt.cases.get ⟨i, hi⟩).regex.captures test = some caps →
      (∀ j (hj : j < i),
        (stmt.cases.get ⟨j, Nat.lt_trans hj hi⟩).regex.captures test = none) →
      find_first_match stmt.cases test = some (stmt.cases.get ⟨i, hi⟩, caps)) ∧
    ((∀ c ∈ stmt.cases, c.regex.captures test = none) →
      evaluate_match_statement run_action state stmt = .ok ()) := by
  have hres : evaluate_match_statement run_action state stmt =
      (match find_first_match stmt.cases test with
       | some pr => run_action pr.1.action pr.2
       | none => .ok ()) := by
    rcases h with ⟨hname, htest⟩ | ⟨hname, htest⟩
    · simp [evaluate_match_statement, hname, htest]
    · simp [evaluate_match_statement, hname, htest]
  refine ⟨hres, fun i hi caps hm hb => find_first_match_first _ _ i hi caps hm hb, fun hnone => ?_⟩
  rw [hres, find_first_match_none stmt.cases test hnone]

/-- Witness for C2 at the spec's fixture: state `AI = "Yes. Something
else"`, cases `[(?i:^yes) => A, (?i:.*) => B]`; only action `A` runs. -/
theorem C2_first_match_wins_witness :
    evaluate_match_statement w_run_action w_state w_stmt_first_match
      = .err (.Command "A") := by
  have h := (C2_first_match_wins w_run_action w_state w_stmt_first_match
    "Yes. Something else" (Or.inl ⟨rfl, rfl⟩)).1
  rw [h]
  decide

/-- C3: REFUTED as stated, see `C3_counterexample`.  Amended: only an
error from a bare command statement aborts the invocation at that
statement (no later statement runs and the error is propagated);
errors returned by match statements and by pipe statements are
discarded by the loop, which continues with exactly the remaining
statements.  (A panic still aborts everything.) -/
theorem C3_statement_error_scope
    (eval_match : EvaluateState → MatchStatement → EvalOutcome Unit)
    (eval_pipe : EvaluateState → PipeStatement → EvalOutcome Unit)
    (eval_cmd : EvaluateState → Command → EvalOutcome String)
    (state : EvaluateState) :
    (∀ (c : Command) (rest : List Statement) (e : EvaluateError),
      eval_cmd state c = .err e →
      run_statements eval_match eval_pipe eval_cmd state (.command c :: rest)
        = .err e) ∧
    (∀ (p : PipeStatement) (rest : List Statement) (e : EvaluateError),
      eval_pipe state p = .err e →
      run_statements eval_match eval_pipe eval_cmd state (.pipeStatement p :: rest)
        = run_statements eval_match eval_pipe eval_cmd state rest) ∧
    (∀ (m : MatchStatement) (rest : List Statement) (e : EvaluateError),
      eval_match state m = .err e →
      run_statements eval_match eval_pipe eval_cmd state (.matchStatement m :: rest)
        = run_statements eval_match eval_pipe eval_cmd state rest) := by
  refine ⟨?_, ?_, ?_⟩ <;> intro a rest e he <;> simp [run_statements, he]

/-- Witness for C3: a pipe statement that fails with
`UndeclaredVariable` is skipped and the loop continues as if only the
remaining statements were present. -/
theorem C3_statement_error_scope_witness :
    run_statements w_eval_match w_eval_pipe w_eval_cmd w_state
        [Statement.pipeStatement pipe_foo]
      = run_statements w_eval_match w_eval_pipe w_eval_cmd w_state [] :=
  (C3_statement_error_scope w_eval_match w_eval_pipe w_eval_cmd w_state).2.1
    pipe_foo [] (.UndeclaredVariable "FOO") (by decide)

/-- Counterexample for C3: the pipe statement errs with
`UndeclaredVariable "FOO"`, yet the invocation does not abort there —
the following bare command still runs (its shell error becomes the
overall result) and the pipe error is not propagated. -/
theorem C3_counterexample :
    w_eval_pipe w_state pipe_foo = .err (.UndeclaredVariable "FOO") ∧
    run_statements w_eval_match w_eval_pipe w_eval_cmd w_state
        [Statement.pipeStatement pipe_foo, Statement.command ⟨"true"⟩]
      = .err (.Command "later boom") := by
  constructor
  · decide
  · decide

/-- C4: REFUTED as stated, see `C4_counterexample`.  Amended: a pipe
statement whose subject variable is neither `AI` nor `USER` returns
the recoverable `UndeclaredVariable` error carrying the name, but a
match statement testing such a variable panics with "Unexpected
variable" instead of returning the error. -/
theorem C4_unknown_variable (name : String)
    (h1 : name ≠ "AI") (h2 : name ≠ "USER")
    (eval_cmd : EvaluateState → Command →
      Option (Captures × List (Option String)) → EvalOutcome String)
    (eval_call : EvaluateState → PromptCall → String → EvalOutcome Unit)
    (run_action : MatchAction → Captures → EvalOutcome Unit)
    (state : EvaluateState)
    (captures : Option (Captures × List (Option String))) :
    (∀ call : PromptCall,
      evaluate_pipe_statement eval_cmd eval_call state
          { call := call, subject := .var ⟨name⟩ } captures
        = .err (.UndeclaredVariable name)) ∧
    (∀ cases : List MatchCase,
      evaluate_match_statement run_action state { var := ⟨name⟩, cases := cases }
        = .panicked "Unexpected variable") := by
  constructor
  · intro call
    simp [evaluate_pipe_statement, h1, h2]
  · intro cases
    simp [evaluate_match_statement, h1, h2]

/-- Witness for C4 at the variable `FOO`. -/
theorem C4_unknown_variable_witness :
    evaluate_pipe_statement
        (fun st c caps => evaluate_command w_shell_later w_evaluator st c caps)
        w_eval_call_ok w_state { call := ⟨["x"]⟩, subject := .var ⟨"FOO"⟩ } none
      = .err (.UndeclaredVariable "FOO") ∧
    evaluate_match_statement w_run_action w_state { var := ⟨"FOO"⟩, cases := [] }
      = .panicked "Unexpected variable" :=
  ⟨(C4_unknown_variable "FOO" (by decide) (by decide)
      (fun st c caps => evaluate_command w_shell_later w_evaluator st c caps)
      w_eval_call_ok w_run_action w_state none).1 ⟨["x"]⟩,
   (C4_unknown_variable "FOO" (by decide) (by decide)
      (fun st c caps => evaluate_command w_shell_later w_evaluator st c caps)
      w_eval_call_ok w_run_action w_state none).2 []⟩

/-- Counterexample for C4: for the match-statement site the claim
promises `UndeclaredVariable` and no crash, but the code panics. -/
theorem C4_counterexample :
    evaluate_match_statement w_run_action w_state { var := ⟨"FOO"⟩, cases := [] }
      = .panicked "Unexpected variable" ∧
    evaluate_match_statement w_run_action w_state { var := ⟨"FOO"⟩, cases := [] }
      ≠ .err (.UndeclaredVariable "FOO") := by
  constructor
  · decide
  · decide

theorem spawn_branches_all_present
    (spawn_branch : Prompt → ChatCommand → EvalOutcome Unit)
    (program : Program) (state : EvaluateState) (append : String)
    (names : List String)
    (h : ∀ n ∈ names, (lookup_prompt program.prompts n).isSome) :
    ∃ rs, spawn_branches spawn_branch program state append names = .ok rs ∧
      rs.length = names.length := by
  induction names with
  | nil => exact ⟨[], rfl, rfl⟩
  | cons n rest ih =>
    obtain ⟨p, hp⟩ := Option.isSome_iff_exists.mp (h n (by simp))
    obtain ⟨rs, hrs, hlen⟩ := ih (fun x hx => h x (by simp [hx]))
    refine ⟨spawn_branch p
      (branch_chat_command p append (some state.current_prompt_name)) :: rs, ?_, ?_⟩
    · simp only [spawn_branches, hp, hrs]
    · simp [hlen]

theorem spawn_branches_first_missing
    (spawn_branch : Prompt → ChatCommand → EvalOutcome Unit)
    (program : Program) (state : EvaluateState) (append : String)
    (names : List String) (n : String)
    (h : names.find? (fun x => (lookup_prompt program.prompts x).isNone) = some n) :
    spawn_branches spawn_branch program state append names
      = .panicked ("unwrap on MissingPrompt " ++ n) := by
  induction names with
  | nil => simp [List.find?] at h
  | cons x rest ih =>
    cases hl : lookup_prompt program.prompts x with
    | none =>
      rw [List.find?_cons_of_pos _ (by simp [hl])] at h
      obtain rfl : x = n := by simpa using h
      simp [spawn_branches, hl]
    | some p =>
      rw [List.find?_cons_of_neg _ (by simp [hl])] at h
      simp [spawn_branches, hl, ih h]

/-- C5: REFUTED as stated, see `C5_counterexample`.  Amended: every
name of a `PromptCall` is resolved against the program's prompt list
and all branches spawn when every name is present; but an absent name
makes the evaluator panic (`.ok_or(MissingPrompt).unwrap()`), so the
failure surfaces as a crash of the calling task (a join failure at the
join point), not as a returned `EvaluateError::MissingPrompt`. -/
theorem C5_prompt_call_resolution
    (spawn_branch : Prompt → ChatCommand → EvalOutcome Unit)
    (evaluator : Evaluate) (state : EvaluateState) (call : PromptCall)
    (append : String) :
    ((∀ n ∈ call.names, (lookup_prompt evaluator.program.prompts n).isSome) →
      ∃ rs, evaluate_prompt_call spawn_branch evaluator state call append = .ok rs ∧
        rs.length = call.names.length) ∧
    (∀ n, call.names.find?
        (fun x => (lookup_prompt evaluator.program.prompts x).isNone) = some n →
      evaluate_prompt_call spawn_branch evaluator state call append
        = .panicked ("unwrap on MissingPrompt " ++ n)) := by
  exact ⟨fun h => spawn_branches_all_present spawn_branch evaluator.program state
      append call.names h,
    fun n h => spawn_branches_first_missing spawn_branch evaluator.program state
      append call.names n h⟩

/-- Witness for C5: calling the absent prompt `ghost` in a one-prompt
program panics with the wrapped `MissingPrompt` text. -/
theorem C5_prompt_call_resolution_witness :
    evaluate_prompt_call (fun _ _ => .ok ()) w_evaluator_one w_state ghost_call ""
      = .panicked ("unwrap on MissingPrompt " ++ "ghost") :=
  (C5_prompt_call_resolution (fun _ _ => .ok ()) w_evaluator_one w_state
    ghost_call "").2 "ghost" (by decide)

/-- Counterexample for C5: the claim promises a propagated
`EvaluateError::MissingPrompt`, but the evaluation crashes instead and
no `MissingPrompt` error value is produced. -/
theorem C5_counterexample :
    evaluate_prompt_call (fun _ _ => .ok ()) w_evaluator_one w_state ghost_call ""
      = .panicked "unwrap on MissingPrompt ghost" ∧
    evaluate_prompt_call (fun _ _ => .ok ()) w_evaluator_one w_state ghost_call ""
      ≠ .err (.MissingPrompt "ghost") := by
  constructor
  · decide
  · decide

theorem string_length_pos_iff (s : String) : 0 < s.length ↔ s ≠ "" := by
  cases s with
  | mk data =>
    have h1 : ((⟨data⟩ : String) ≠ "") ↔ data ≠ [] := by
      simp [String.ext_iff]
    rw [show (String.length ⟨data⟩) = data.length from rfl, h1]
    exact List.length_pos

/-- C6: REFUTED as stated, see `C6_counterexample`.  Amended: shell
execution returns `EvaluateError::Command` if and only if the
process's stderr is non-empty *after trimming leading and trailing
whitespace*; the error carries the trimmed stderr text; otherwise the
trimmed stdout is returned; and the process's exit status is never
consulted. -/
theorem C6_command_stderr (out : ProcessOutput) (env : Evaluate)
    (state : EvaluateState) (command : Command) :
    ((∃ e, evaluate_command (fun _ => out) env state command none
        = .err (.Command e)) ↔ rust_trim out.stderr ≠ "") ∧
    (∀ e, evaluate_command (fun _ => out) env state command none
        = .err (.Command e) → e = rust_trim out.stderr) ∧
    (rust_trim out.stderr = "" →
      evaluate_command (fun _ => out) env state command none
        = .ok (rust_trim out.stdout)) ∧
    (∀ status1 status2 : Int,
      evaluate_command (fun _ => { out with status := status1 }) env state command none
        = evaluate_command (fun _ => { out with status := status2 }) env state command none) := by
  have hdef : evaluate_command (fun _ => out) env state command none
      = if (rust_trim out.stderr).length > 0
        then .err (.Command (rust_trim out.stderr))
        else .ok (rust_trim out.stdout) := rfl
  by_cases hs : rust_trim out.stderr = ""
  · have hlen : ¬ (rust_trim out.stderr).length > 0 := by
      rw [hs]
      simp
    rw [hdef, if_neg hlen]
    refine ⟨?_, ?_, fun _ => rfl, fun s1 s2 => rfl⟩
    · constructor
      · rintro ⟨e, he⟩
        cases he
      · intro hne
        exact absurd hs hne
    · intro e he
      cases he
  · have hlen : (rust_trim out.stderr).length > 0 := (string_length_pos_iff _).mpr hs
    rw [hdef, if_pos hlen]
    refine ⟨?_, ?_, fun hc => absurd hc hs, fun s1 s2 => rfl⟩
    · exact ⟨fun _ => hs, fun _ => ⟨rust_trim out.stderr, rfl⟩⟩
    · intro e he
      cases he
      rfl

/-- Witness for C6: a process writing only whitespace to stderr (with
a failing exit status) still returns its trimmed stdout. -/
theorem C6_command_stderr_witness :
    evaluate_command (fun _ => { stdout := "hi", stderr := " \n", status := 7 })
        w_evaluator w_state ⟨"echo hi"⟩ none
      = .ok "hi" := by
  have h := (C6_command_stderr { stdout := "hi", stderr := " \n", status := 7 }
    w_evaluator w_state ⟨"echo hi"⟩).2.2.1 (by decide)
  rw [h]
  decide

/-- Counterexample for C6: stderr ` \n` is a non-empty stderr stream,
yet the result is `ok` — the code tests emptiness only after trimming,
so the claimed "if and only if the process produced a non-empty stderr
stream" fails. -/
theorem C6_counterexample :
    (" \n" : String) ≠ "" ∧
    evaluate_command (fun _ => { stdout := "hi", stderr := " \n", status := 0 })
        w_evaluator w_state ⟨"echo hi"⟩ none
      = .ok "hi" := by
  constructor
  · decide
  · decide

/-- C7: REFUTED as stated, see `C7_counterexample`.  Amended: every
prompt invocation whose Chat Service call returns an empty message
list fails with `CommandExited`; when that invocation is the main one
the driver maps `CommandExited` to `std::process::exit(0)` (success)
while every other `EvaluateError` is printed to standard error — but a
*nested* invocation's `CommandExited` is discarded by the enclosing
statement loop and never reaches the driver. -/
theorem C7_command_exited (chat : ChatCommand → List ChatMessage)
    (run_statements_fn : EvaluateState → List Statement → EvalOutcome Unit)
    (prompt : Prompt) (command : ChatCommand) (h : chat command = []) :
    evaluate_prompt chat run_statements_fn prompt command = .err .CommandExited ∧
    driver_handle_result (.err .CommandExited) = some .exit_zero ∧
    (∀ e : EvaluateError, e ≠ .CommandExited →
      driver_handle_result (.err e) = some (.print_stderr e)) := by
  refine ⟨?_, rfl, ?_⟩
  · simp [evaluate_prompt, h]
  · intro e he
    cases e <;> first | rfl | exact absurd rfl he

/-- Witness for C7: an interactive session that ends immediately makes
the main invocation fail with `CommandExited`. -/
theorem C7_command_exited_witness :
    evaluate_prompt chat_empty w_run_stmts prompt_main w_chat_command
      = .err .CommandExited :=
  (C7_command_exited chat_empty w_run_stmts prompt_main w_chat_command rfl).1

/-- Counterexample for C7: a nested invocation reached through a pipe
statement resolves with `CommandExited`; the collected join turns it
into the pipe statement's error, but the enclosing statement loop
discards it and the enclosing invocation completes with `ok` — the
error does not propagate to the top-level driver. -/
theorem C7_counterexample :
    w_eval_pipe_exited w_state pipe_ai = .err .CommandExited ∧
    run_statements w_eval_match w_eval_pipe_exited w_eval_cmd w_state
        [Statement.pipeStatement pipe_ai]
      = .ok () := by
  constructor
  · decide
  · decide

/-- C10: state extraction is asymmetric.  With at least one message
but none of role `Ai`, the evaluator panics (`.unwrap()` of `None`)
instead of returning any `EvaluateError`; with an `Ai` message present
extraction succeeds and proceeds into the statement loop, and if no
message has role `User` the `USER` variable silently defaults to the
empty string. -/
theorem C10_state_extraction_asymmetry (prompt : Prompt) (command : ChatCommand)
    (chat : ChatCommand → List ChatMessage) (h : chat command ≠ []) :
    ((∀ m ∈ chat command, m.role ≠ ChatRole.Ai) →
      (∀ run_statements_fn,
        evaluate_prompt chat run_statements_fn prompt command
          = .panicked "unwrap on None") ∧
      (∀ e, extract_state prompt (chat command) ≠ .err e)) ∧
    ((∃ m ∈ chat command, m.role = ChatRole.Ai) →
      ∃ state, extract_state prompt (chat command) = .ok state ∧
        (∀ run_statements_fn,
          evaluate_prompt chat run_statements_fn prompt command
            = run_statements_fn state prompt.statements) ∧
        ((∀ m ∈ chat command, m.role ≠ ChatRole.User) →
          state.vars.user = "")) := by
  have hlen : ¬ (chat command).length = 0 := by
    simpa [List.length_eq_zero] using h
  constructor
  · intro hnoai
    have hnone : find_latest (fun m => decide (m.role = ChatRole.Ai)) (chat command)
        = none := by
      rw [find_latest, List.find?_eq_none]
      intro m hm
      simpa using hnoai m (List.mem_reverse.mp hm)
    constructor
    · intro run_statements_fn
      simp [evaluate_prompt, hlen, extract_state, hnone]
    · intro e
      simp [extract_state, hnone]
  · rintro ⟨m, hm, hrole⟩
    have hissome : (List.find? (fun m => decide (m.role = ChatRole.Ai))
        (chat command).reverse).isSome := by
      rw [List.find?_isSome]
      exact ⟨m, List.mem_reverse.mpr hm, by simp [hrole]⟩
    obtain ⟨ma, hma⟩ := Option.isSome_iff_exists.mp hissome
    have hextract : extract_state prompt (chat command) = .ok
        { current_prompt_name := prompt.name,
          vars := { ai := strip_role_label ma.content,
                    user :=
                      match find_latest (fun m => decide (m.role = ChatRole.User))
                          (chat command) with
                      | some mu => strip_role_label mu.content
                      | none => "" } } := by
      rw [extract_state, find_latest, hma]
    refine ⟨_, hextract, ?_, ?_⟩
    · intro run_statements_fn
      simp [evaluate_prompt, hlen, hextract]
    · intro hnou
      have hnone : find_latest (fun m => decide (m.role = ChatRole.User)) (chat command)
          = none := by
        rw [find_latest, List.find?_eq_none]
        intro mu hmu
        simpa using hnou mu (List.mem_reverse.mp hmu)
      simp [hnone]

/-- Witness for C10: a non-empty message list containing only a `User`
message crashes the evaluation with the unwrap panic. -/
theorem C10_state_extraction_asymmetry_witness :
    evaluate_prompt chat_no_ai w_run_stmts prompt_main w_chat_command
      = .panicked "unwrap on None" :=
  ((C10_state_extraction_asymmetry prompt_main w_chat_command chat_no_ai
      (by decide)).1 (by decide)).1 w_run_stmts

/-! ## Session tail lemmas -/

theorem split_newlines_append (l r : List Char) (h : '\n' ∉ l) :
    split_newlines (l ++ '\n' :: r) = l :: split_newlines r := by
  induction l with
  | nil => simp [split_newlines]
  | cons c cs ih =>
    have hc : ¬ c = '\n' := fun hc => h (by simp [hc])
    simp only [List.cons_append, split_newlines, if_neg hc]
    rw [show (cs.append ('\n' :: r)) = cs ++ '\n' :: r from rfl,
      ih (fun hm => h (List.mem_cons_of_mem _ hm))]

theorem split_newlines_no_newline (s : List Char) :
    ∀ piece ∈ split_newlines s, '\n' ∉ piece := by
  induction s with
  | nil =>
    intro piece hp
    simp [split_newlines] at hp
    simp [hp]
  | cons c cs ih =>
    intro piece hp
    by_cases hc : c = '\n'
    · simp only [split_newlines, if_pos hc] at hp
      rcases List.mem_cons.mp hp with rfl | hp
      · simp
      · exact ih piece hp
    · simp only [split_newlines, if_neg hc] at hp
      cases hsp : split_newlines cs with
      | nil =>
        rw [hsp] at hp
        simp at hp
        subst hp
        simp only [List.mem_singleton]
        exact fun h0 => hc h0.symm
      | cons l ls =>
        rw [hsp] at hp
        rcases List.mem_cons.mp hp with rfl | hp
        · intro hmem
          rcases List.mem_cons.mp hmem with heq | hmem
          · exact hc heq.symm
          · exact ih l (by rw [hsp]; simp) hmem
        · exact ih piece (by rw [hsp]; simp [hp])

theorem split_newlines_subset (s : List Char) :
    ∀ piece ∈ split_newlines s, ∀ c ∈ piece, c ∈ s := by
  induction s with
  | nil =>
    intro piece hp
    simp [split_newlines] at hp
    simp [hp]
  | cons x xs ih =>
    intro piece hp c hcp
    by_cases hx : x = '\n'
    · simp only [split_newlines, if_pos hx] at hp
      rcases List.mem_cons.mp hp with rfl | hp
      · simp at hcp
      · exact List.mem_cons_of_mem _ (ih piece hp c hcp)
    · simp only [split_newlines, if_neg hx] at hp
      cases hsp : split_newlines xs with
      | nil =>
        rw [hsp] at hp
        simp at hp
        subst hp
        simp at hcp
        simp [hcp]
      | cons l ls =>
        rw [hsp] at hp
        rcases List.mem_cons.mp hp with rfl | hp
        · rcases List.mem_cons.mp hcp with rfl | hcp
          · simp
          · exact List.mem_cons_of_mem _ (ih l (by rw [hsp]; simp) c hcp)
        · exact List.mem_cons_of_mem _ (ih piece (by rw [hsp]; simp [hp]) c hcp)

theorem strip_trailing_cr_of_no_cr {l : List Char} (h : '\r' ∉ l) :
    strip_trailing_cr l = l := by
  induction l with
  | nil => rfl
  | cons c rest ih =>
    cases rest with
    | nil =>
      have hc : ¬ c = '\r' := fun h0 => h (by simp [h0])
      simp [strip_trailing_cr, hc]
    | cons y ys =>
      show c :: strip_trailing_cr (y :: ys) = c :: y :: ys
      rw [ih (fun hm => h (List.mem_cons_of_mem _ hm))]

theorem strip_trailing_cr_subset (l : List Char) :
    ∀ c ∈ strip_trailing_cr l, c ∈ l := by
  induction l with
  | nil => intro c hc; exact absurd hc (by simp [strip_trailing_cr])
  | cons x rest ih =>
    intro c hc
    cases rest with
    | nil =>
      by_cases hx : x = '\r'
      · simp [strip_trailing_cr, hx] at hc
      · simp [strip_trailing_cr, hx] at hc
        simp [hc]
    | cons y ys =>
      rcases List.mem_cons.mp hc with rfl | hc
      · simp
      · exact List.mem_cons_of_mem _ (ih c hc)

theorem drop_trailing_empty_subset (X : List (List Char)) :
    ∀ p ∈ drop_trailing_empty X, p ∈ X := by
  induction X with
  | nil => intro p hp; exact absurd hp (by simp [drop_trailing_empty])
  | cons x rest ih =>
    intro p hp
    cases rest with
    | nil =>
      by_cases hx : x.isEmpty
      · simp [drop_trailing_empty, hx] at hp
      · simp [drop_trailing_empty, hx] at hp
        simp [hp]
    | cons y ys =>
      rcases List.mem_cons.mp hp with rfl | hp
      · simp
      · exact List.mem_cons_of_mem _ (ih p hp)

theorem filter_strip_dte (X : List (List Char)) :
    ((drop_trailing_empty X).map strip_trailing_cr).filter (fun l => !l.isEmpty)
      = (X.map strip_trailing_cr).filter (fun l => !l.isEmpty) := by
  induction X with
  | nil => rfl
  | cons x rest ih =>
    cases rest with
    | nil =>
      by_cases hx : x.isEmpty
      · have hxe : x = [] := by
          cases x with
          | nil => rfl
          | cons c cs => simp at hx
        simp [drop_trailing_empty, hx, hxe, strip_trailing_cr]
      · simp [drop_trailing_empty, hx]
    | cons y ys =>
      show ((x :: drop_trailing_empty (y :: ys)).map strip_trailing_cr).filter _ = _
      simp only [List.map_cons, List.filter_cons]
      rw [ih]
      simp only [List.map_cons, List.filter_cons]

theorem filter_split_render (Ls : List (List Char))
    (h : ∀ l ∈ Ls, '\n' ∉ l ∧ '\r' ∉ l) :
    ((split_newlines (render_lines Ls)).map strip_trailing_cr).filter (fun l => !l.isEmpty)
      = Ls.filter (fun l => !l.isEmpty) := by
  induction Ls with
  | nil => rfl
  | cons l ls ih =>
    have hl := h l (List.mem_cons_self l ls)
    have hrest : ∀ x ∈ ls, '\n' ∉ x ∧ '\r' ∉ x :=
      fun x hx => h x (List.mem_cons_of_mem _ hx)
    show ((split_newlines (l ++ '\n' :: '\n' :: render_lines ls)).map
        strip_trailing_cr).filter (fun l => !l.isEmpty) = _
    rw [split_newlines_append l _ hl.1,
      show split_newlines ('\n' :: render_lines ls)
        = [] :: split_newlines (render_lines ls) from by simp [split_newlines]]
    simp only [List.map_cons, List.filter_cons, strip_trailing_cr_of_no_cr hl.2,
      show strip_trailing_cr [] = [] from rfl, List.isEmpty_nil, Bool.not_true,
      ih hrest]
    simp

theorem rust_lines_props (t : List Char) (hcr : '\r' ∉ t) :
    ∀ l ∈ rust_lines t, '\n' ∉ l ∧ '\r' ∉ l := by
  intro l hl
  rw [rust_lines] at hl
  obtain ⟨p, hp, rfl⟩ := List.mem_map.mp hl
  have hpX := drop_trailing_empty_subset _ p hp
  have hnop : '\n' ∉ p := split_newlines_no_newline t p hpX
  have hsubp : ∀ c ∈ p, c ∈ t := split_newlines_subset t p hpX
  constructor
  · intro hc
    exact hnop (strip_trailing_cr_subset p _ hc)
  · intro hc
    exact hcr (hsubp _ (strip_trailing_cr_subset p _ hc))

theorem nonblank_render_rust_lines (t : List Char) (hcr : '\r' ∉ t) :
    nonblank_lines (render_lines (rust_lines t)) = nonblank_lines t := by
  show ((drop_trailing_empty (split_newlines (render_lines (rust_lines t)))).map
      strip_trailing_cr).filter (fun l => !l.isEmpty) = _
  rw [filter_strip_dte, filter_split_render _ (rust_lines_props t hcr)]
  rfl

/-- C9: REFUTED as stated, see `C9_counterexample`.  Amended: on open
the Session Tail prints, as baseline, the transcript suffix after the
divider with its leading whitespace trimmed and every line followed by
an extra blank line; for a CR-free transcript that does not begin with
whitespace, the printed baseline preserves exactly the transcript's
non-blank lines, in order — it is not the identical suffix character
for character. -/
theorem C9_session_baseline (config t : List Char)
    (hfind : find_sub divider_chars
        (config ++ '\n' :: (divider_chars ++ '\n' :: t)) = some (config.length + 1))
    (hcr : '\r' ∉ t) :
    monitor_baseline (config ++ '\n' :: (divider_chars ++ '\n' :: t))
      = .ok (render_lines (rust_lines (trim_start_chars t))) ∧
    (trim_start_chars t = t →
      ∀ b, monitor_baseline (config ++ '\n' :: (divider_chars ++ '\n' :: t)) = .ok b →
        nonblank_lines b = nonblank_lines t) := by
  have hlen : ¬ (config ++ '\n' :: (divider_chars ++ '\n' :: t)).length
      < config.length + 1 + 4 := by
    simp only [List.length_append, List.length_cons, divider_chars]
    omega
  have hdrop : (config ++ '\n' :: (divider_chars ++ '\n' :: t)).drop
      (config.length + 1 + 4) = t := by
    have h5 : config.length + 1 + 4 = config.length + 5 := by omega
    rw [h5, List.drop_append 5]
    simp [divider_chars]
  have hbase : monitor_baseline (config ++ '\n' :: (divider_chars ++ '\n' :: t))
      = .ok (render_lines (rust_lines (trim_start_chars t))) := by
    unfold monitor_baseline
    rw [hfind]
    dsimp only
    rw [if_neg hlen, hdrop]
  refine ⟨hbase, fun htrim b hb => ?_⟩
  rw [hbase, htrim] at hb
  cases hb
  exact nonblank_render_rust_lines t hcr

/-- Witness for C9: the session file `cfg\n<->\nhello\nworld` prints
`hello\n\nworld\n\n` as baseline, and the non-blank lines agree with
the transcript. -/
theorem C9_session_baseline_witness :
    monitor_baseline (String.toList "cfg\n<->\nhello\nworld")
      = .ok (String.toList "hello\n\nworld\n\n") ∧
    nonblank_lines (String.toList "hello\n\nworld\n\n")
      = nonblank_lines (String.toList "hello\nworld") := by
  have heq : String.toList "cfg"
      ++ '\n' :: (divider_chars ++ '\n' :: String.toList "hello\nworld")
      = String.toList "cfg\n<->\nhello\nworld" := by decide
  have h := C9_session_baseline (String.toList "cfg") (String.toList "hello\nworld")
    (by rw [heq]; decide) (by decide)
  rw [heq] at h
  constructor
  · rw [h.1]
    decide
  · exact h.2 (by decide) _ (by rw [h.1]; decide)

/-- Counterexample for C9: with transcript `  hi` after the divider,
the baseline printed is `hi\n\n` — the leading whitespace of the
transcript is lost, so even modulo line structure the recovered text
differs from the transcript suffix character for character. -/
theorem C9_counterexample :
    monitor_baseline (String.toList "cfg\n<->\n  hi")
      = .ok (String.toList "hi\n\n") ∧
    String.toList "hi\n\n" ≠ String.toList "  hi" ∧
    nonblank_lines (String.toList "hi\n\n") ≠ nonblank_lines (String.toList "  hi") := by
  refine ⟨by decide, by decide, by decide⟩
